import Mathlib

/- Shallow embedding of the holonomic trajectory manager of cvra-modules
   (modules/trajectory_manager/holonomic: trajectory_manager_utils.c and
   trajectory_manager.h).

   Modelling conventions:
   - C doubles and floats are modelled as real numbers.
   - int32_t and int8_t are modelled as Int (no value in the code approaches
     the overflow range of either type).
   - A float-to-int cast is truncation toward zero (truncTowardZero).
   - The C macro M_PI_2 from math.h denotes pi / 2 (a quarter turn), and is
     embedded as such.
   - atan2f is embedded through Complex.arg, which agrees with atan2 on
     every nonzero vector and at the origin (both give 0).
   - The file-static variables prev_speed and keyframe are gathered in a
     Globals record threaded through the functions that read or write them.
   - The external scheduler is modelled as the list of task ids it currently
     holds plus a counter for fresh ids; registering returns a fresh
     nonnegative id, deregistering erases an id.
   - The external drive sink (robot_system) is modelled by recording the
     calls made to it during one tick, in order, in a list of RshCmd.
   - The position manager is external: the pose (x, y, heading) and the
     speed-vector heading are inputs of each tick. -/

/-- Moving part of a trajectory (enum h_trajectory_moving_state). -/
inductive MovingState
  | STRAIGHT
  | CIRCLE
  | IDLE
deriving DecidableEq

/-- Turning part of a trajectory (enum h_trajectory_turning_state). -/
inductive TurningState
  | CAP
  | SPEEDOFFSET
  | FACEPOINT
  | IDLE
deriving DecidableEq

/-- struct h_trajectory. The fields documented as unused in the header
    (speed, direction, omega, cs_hz, and the ramp-filter pointers) and the
    non-owning pointers to the position manager and the robot system are not
    part of the record: pose data enters as per-tick inputs and drive-sink
    calls are recorded in the tick output. -/
structure HTrajectory where
  moving_state : MovingState
  turning_state : TurningState
  xy_target : ℝ × ℝ
  a_target : ℝ
  circle_center : ℝ × ℝ
  arc_angle : ℝ
  radius : ℝ
  point2face : ℝ × ℝ
  d_win : ℝ
  a_win : ℝ
  end_of_traj : Bool
  scheduler_task : Int

/-- The file-static state of trajectory_manager_utils.c: prev_speed and the
    keyframe of MOVING_CIRCLE (statically initialized to (-1, -1)). -/
structure Globals where
  prev_speed : Int
  keyframe : ℝ × ℝ

/-- Model of the external periodic scheduler: the ids it currently holds and
    a counter producing fresh ids. -/
structure Scheduler where
  tasks : List Int
  next_id : Nat

/-- One call to the drive sink (robot_system holonomic interface). -/
inductive RshCmd
  | setSpeed (v : Int)
  | setDirection (v : Int)
  | setRotationSpeed (v : Int)
deriving DecidableEq

/-- scheduler_add_periodical_event_priority: hand out a fresh id and record
    it; the id is a Nat cast to Int, hence never -1. -/
def scheduler_add (sch : Scheduler) : Scheduler × Int :=
  ({ tasks := (sch.next_id : Int) :: sch.tasks, next_id := sch.next_id + 1 },
   (sch.next_id : Int))

/-- scheduler_del_event: remove an id from the scheduler. -/
def scheduler_del (sch : Scheduler) (t : Int) : Scheduler :=
  { sch with tasks := sch.tasks.erase t }

/-- C cast of a double to int32_t: truncation toward zero. -/
noncomputable def truncTowardZero (x : ℝ) : ℤ :=
  if 0 ≤ x then ⌊x⌋ else ⌈x⌉

/-- The math.h constant M_PI_2, which is pi / 2. -/
noncomputable def M_PI_2 : ℝ := Real.pi / 2

/-- atan2f(y, x), embedded as the argument of the complex number x + y i. -/
noncomputable def atan2f (y x : ℝ) : ℝ := Complex.arg (x + y * Complex.I)

/-- vect2_dist_cart: euclidean distance of two cartesian vectors. -/
noncomputable def vect2_dist_cart (a b : ℝ × ℝ) : ℝ :=
  Real.sqrt ((a.1 - b.1) ^ 2 + (a.2 - b.2) ^ 2)

/-- vect2_angle_vec_x_rad_cart: angle between a vector and the x axis. -/
noncomputable def vect2_angle_vec_x_rad_cart (v : ℝ × ℝ) : ℝ :=
  atan2f v.2 v.1

/-- TO_DEG: radians to degrees. -/
noncomputable def TO_DEG (a : ℝ) : ℝ := a * 180 / Real.pi

/-- SPEED_ROBOT, the nominal cruise speed. -/
def SPEED_ROBOT : Int := 500

/-- ANGLE_INC, the angle between two keyframes. -/
noncomputable def ANGLE_INC : ℝ := 0.05

/-- holonomic_best_delta_angle_rad, verbatim from the source:
    if (a > M_PI) return a - 2*M_PI; else if (a < -M_PI) return 2*M_PI - a;
    else return a. -/
noncomputable def holonomic_best_delta_angle_rad (a : ℝ) : ℝ :=
  if a > Real.pi then a - 2 * Real.pi
  else if a < -Real.pi then 2 * Real.pi - a
  else a

/-- holonomic_simple_modulo_2pi, verbatim from the source:
    if (a < -M_PI) a += M_PI_2; else if (a > M_PI) a -= M_PI_2; return a. -/
noncomputable def holonomic_simple_modulo_2pi (a : ℝ) : ℝ :=
  if a < -Real.pi then a + M_PI_2
  else if a > Real.pi then a - M_PI_2
  else a

/-- holonomic_modulo_2pi, verbatim from the source:
    res = a - ((int32_t)(a/M_PI_2)) * M_PI_2; return simple_modulo(res). -/
noncomputable def holonomic_modulo_2pi (a : ℝ) : ℝ :=
  holonomic_simple_modulo_2pi (a - (truncTowardZero (a / M_PI_2) : ℝ) * M_PI_2)

/-- holonomic_angle_facepoint_rad: angle of the facing point vector minus the
    robot heading, normalized by holonomic_best_delta_angle_rad. -/
noncomputable def holonomic_angle_facepoint_rad (fpc : ℝ × ℝ) (heading : ℝ) : ℝ :=
  holonomic_best_delta_angle_rad (vect2_angle_vec_x_rad_cart fpc - heading)

/-- holonomic_do_ramp: prev_speed = prev_speed + (consign >= prev_speed ?
    20 : -20); the commented-out clamp of the source is absent. -/
def holonomic_do_ramp (prev_speed consign : Int) : Int :=
  prev_speed + (if prev_speed ≤ consign then 20 else -20)

/-- set_consigns_to_rsh: ramp the speed then push speed, direction and
    rotation speed to the drive sink. -/
def set_consigns_to_rsh (g : Globals) (speed direction omega : Int) :
    Globals × List RshCmd :=
  let p := holonomic_do_ramp g.prev_speed speed
  ({ g with prev_speed := p },
   [RshCmd.setSpeed p, RshCmd.setDirection direction, RshCmd.setRotationSpeed omega])

/-- holonomic_delete_event: reset prev_speed, set end_of_traj, push zero
    consigns, force the drive speed to zero, and deregister the task when one
    is armed. theta_v_int is holonomic_position_get_theta_v_int. -/
def holonomic_delete_event (traj : HTrajectory) (g : Globals)
    (theta_v_int : Int) (sch : Scheduler) :
    HTrajectory × Globals × Scheduler × List RshCmd :=
  let g0 : Globals := { g with prev_speed := 0 }
  let t0 : HTrajectory := { traj with end_of_traj := true }
  let r1 := set_consigns_to_rsh g0 0 theta_v_int 0
  let cmds := r1.2 ++ [RshCmd.setSpeed 0]
  if t0.scheduler_task ≠ -1 then
    ({ t0 with scheduler_task := -1 }, r1.1, scheduler_del sch t0.scheduler_task, cmds)
  else
    (t0, r1.1, sch, cmds)

/-- holonomic_schedule_event: when a task is already armed only a debug
    message is produced; otherwise register the periodic event and store the
    returned id. -/
def holonomic_schedule_event (traj : HTrajectory) (sch : Scheduler) :
    HTrajectory × Scheduler :=
  if traj.scheduler_task ≠ -1 then
    (traj, sch)
  else
    let r := scheduler_add sch
    ({ traj with scheduler_task := r.2 }, r.1)

/-- holonomic_robot_in_xy_window: distance from the pose to xy_target
    strictly below d_win. -/
noncomputable def holonomic_robot_in_xy_window (x y : ℝ) (xy_target : ℝ × ℝ)
    (d_win : ℝ) : Bool :=
  if vect2_dist_cart (x, y) xy_target < d_win then true else false

/-- holonomic_robot_in_angle_window, verbatim from the source:
    d_a = a_target - heading; if |d_a| < pi the window test is
    |d_a| < a_win/2, otherwise it is 2*pi - |d_a| < a_win/2. -/
noncomputable def holonomic_robot_in_angle_window (a_target heading a_win_rad : ℝ) :
    Bool :=
  let d_a := a_target - heading
  if |d_a| < Real.pi then
    (if |d_a| < a_win_rad / 2 then true else false)
  else
    (if 2 * Real.pi - |d_a| < a_win_rad / 2 then true else false)

/-- The keyframe formula of MOVING_CIRCLE: center + radius at the current
    polar angle of the pose around the center minus ANGLE_INC. -/
noncomputable def circle_keyframe (cc : ℝ × ℝ) (radius x y : ℝ) : ℝ × ℝ :=
  (cc.1 + Real.cos (atan2f (y - cc.2) (x - cc.1) - ANGLE_INC) * radius,
   cc.2 + Real.sin (atan2f (y - cc.2) (x - cc.1) - ANGLE_INC) * radius)

/-- The arrival point computed in the MOVING_CIRCLE completion branch:
    center + radius at the current polar angle of the pose around the center
    minus arc_angle. The polar angle is taken at the CURRENT pose. -/
noncomputable def circle_arrival (cc : ℝ × ℝ) (radius arc_angle x y : ℝ) : ℝ × ℝ :=
  (cc.1 + Real.cos (atan2f (y - cc.2) (x - cc.1) - arc_angle) * radius,
   cc.2 + Real.sin (atan2f (y - cc.2) (x - cc.1) - arc_angle) * radius)

/-- Modelled from the spec (section 4.1 step 5, CIRCLE arrival): the arc
    geometric arrival point, center + radius at angle arc_angle measured from
    the polar angle of the START pose (sx, sy) of the arc around the center. -/
noncomputable def spec_arc_arrival (cc : ℝ × ℝ) (radius arc_angle sx sy : ℝ) :
    ℝ × ℝ :=
  (cc.1 + Real.cos (atan2f (sy - cc.2) (sx - cc.1) - arc_angle) * radius,
   cc.2 + Real.sin (atan2f (sy - cc.2) (sx - cc.1) - arc_angle) * radius)

/-- Step 1 of the tick (switch on moving_state): returns the speed consign,
    the angle consign, the new keyframe and the new xy_target. distance2target
    and vec_target are computed from the xy_target found at entry, as in the
    source. -/
noncomputable def step1_moving (traj : HTrajectory) (g : Globals) (x y : ℝ) :
    Int × Int × (ℝ × ℝ) × (ℝ × ℝ) :=
  let distance2target : ℤ := truncTowardZero (vect2_dist_cart (x, y) traj.xy_target)
  let vec_target : ℝ × ℝ := (traj.xy_target.1 - x, traj.xy_target.2 - y)
  match traj.moving_state with
  | .STRAIGHT =>
      ((if distance2target < 250 then 2 * distance2target else SPEED_ROBOT),
       truncTowardZero (TO_DEG (vect2_angle_vec_x_rad_cart vec_target)),
       g.keyframe, traj.xy_target)
  | .CIRCLE =>
      let kf := if g.keyframe.1 < 0 then circle_keyframe traj.circle_center traj.radius x y
                else g.keyframe
      (SPEED_ROBOT / 5,
       truncTowardZero (TO_DEG (vect2_angle_vec_x_rad_cart vec_target)),
       kf, kf)
  | .IDLE => (0, 0, g.keyframe, traj.xy_target)

/-- Step of the tick switching on turning_state: the angular speed consign.
    In the source the SPEEDOFFSET and FACEPOINT branches assign the constant
    1 (the calls deriving the consign from the geometry are commented out). -/
noncomputable def step_turning (traj : HTrajectory) (heading : ℝ) : Int :=
  match traj.turning_state with
  | .CAP =>
      if traj.a_target - heading < 0 ∨ Real.pi < traj.a_target - heading then 50
      else -50
  | .SPEEDOFFSET => 1
  | .FACEPOINT => 1
  | .IDLE => 0

/-- Result of one tick of the evaluator: the new trajectory state, the new
    static state, the new scheduler state, the drive-sink calls made this
    tick, and the consign triple passed to set_consigns_to_rsh at step 2
    (none when the tick returned before step 2). -/
structure EventResult where
  traj : HTrajectory
  g : Globals
  sch : Scheduler
  cmds : List RshCmd
  consigns : Option (Int × Int × Int)

/-- Tail of the tick: the moving-idle angular arrival check followed by
    step 2 (set_consigns_to_rsh). -/
noncomputable def event_step2 (traj : HTrajectory) (g : Globals) (sch : Scheduler)
    (heading : ℝ) (theta_v_int s_consign a_consign o_consign : Int) : EventResult :=
  if traj.moving_state = .IDLE ∧
      holonomic_robot_in_angle_window traj.a_target heading traj.a_win = true then
    let r := holonomic_delete_event { traj with turning_state := .IDLE } g theta_v_int sch
    ⟨r.1, r.2.1, r.2.2.1, r.2.2.2, none⟩
  else
    let r := set_consigns_to_rsh g s_consign a_consign o_consign
    ⟨traj, r.1, sch, r.2, some (s_consign, a_consign, o_consign)⟩

/-- holonomic_trajectory_manager_event: one tick of the periodic evaluator.
    Inputs: the trajectory, the static state, the scheduler, the pose
    (x, y, heading), and the integer speed-vector heading used by
    holonomic_delete_event. -/
noncomputable def holonomic_trajectory_manager_event (traj : HTrajectory)
    (g : Globals) (sch : Scheduler) (x y heading : ℝ) (theta_v_int : Int) :
    EventResult :=
  let st1 := step1_moving traj g x y
  let s_consign := st1.1
  let a_consign := st1.2.1
  let kf1 := st1.2.2.1
  let xy1 := st1.2.2.2
  let o_consign := step_turning traj heading
  let traj1 : HTrajectory := { traj with xy_target := xy1 }
  let g1 : Globals := { g with keyframe := kf1 }
  if traj1.turning_state = .IDLE ∧
      holonomic_robot_in_xy_window x y traj1.xy_target traj1.d_win = true then
    if traj1.moving_state = .CIRCLE then
      let kf2 := circle_keyframe traj1.circle_center traj1.radius x y
      let arrival := circle_arrival traj1.circle_center traj1.radius traj1.arc_angle x y
      if vect2_dist_cart arrival (x, y) < traj1.d_win then
        let r := holonomic_delete_event traj1 { g1 with keyframe := kf2 } theta_v_int sch
        ⟨r.1, r.2.1, r.2.2.1, r.2.2.2, none⟩
      else
        ⟨traj1, { g1 with keyframe := kf2 }, sch, [], none⟩
    else
      if g1.prev_speed < 20 then
        let r := holonomic_delete_event { traj1 with moving_state := .IDLE } g1 theta_v_int sch
        ⟨r.1, r.2.1, r.2.2.1, r.2.2.2, none⟩
      else
        event_step2 traj1 g1 sch heading theta_v_int 0 a_consign o_consign
  else
    event_step2 traj1 g1 sch heading theta_v_int s_consign a_consign o_consign

/-- Iterate the evaluator over a list of per-tick inputs
    (x, y, heading, theta_v_int). -/
noncomputable def run_event (traj : HTrajectory) (g : Globals) (sch : Scheduler) :
    List (ℝ × ℝ × ℝ × Int) → HTrajectory × Globals × Scheduler
  | [] => (traj, g, sch)
  | p :: rest =>
      let r := holonomic_trajectory_manager_event traj g sch p.1 p.2.1 p.2.2.1 p.2.2.2
      run_event r.traj r.g r.sch rest

/-- Coupling between the armed state of a trajectory and the scheduler
    registry: scheduler_task is -1 exactly when the registry is empty, and
    when a task is armed the registry holds exactly that id. -/
def SchedInv (traj : HTrajectory) (sch : Scheduler) : Prop :=
  (traj.scheduler_task = -1 ↔ sch.tasks = []) ∧
  (traj.scheduler_task ≠ -1 → sch.tasks = [traj.scheduler_task])

/-- A sample trajectory state used to instantiate theorems at concrete
    inputs. -/
def sampleTraj : HTrajectory :=
  { moving_state := .IDLE, turning_state := .IDLE, xy_target := (0, 0),
    a_target := 0, circle_center := (0, 0), arc_angle := 0, radius := 0,
    point2face := (0, 0), d_win := 0, a_win := 0, end_of_traj := false,
    scheduler_task := 5 }

/-- Sample state in STRAIGHT mode with an active turning goal, target at
    (100, 0). -/
def straightSample : HTrajectory :=
  { sampleTraj with moving_state := .STRAIGHT, turning_state := .CAP, xy_target := (100, 0) }

/-- Sample state in FACEPOINT turning mode with an active moving goal. -/
def facepointSample : HTrajectory :=
  { sampleTraj with moving_state := .STRAIGHT, turning_state := .FACEPOINT }

/-- Sample state in CIRCLE mode: unit circle around the origin. -/
def circleSample : HTrajectory :=
  { sampleTraj with moving_state := .CIRCLE, turning_state := .CAP, radius := 1 }

/- ------------------------------------------------------------------ -/
/- Theorems                                                           -/
/- ------------------------------------------------------------------ -/

/-- Claim C3 counterexample: the rate limiter is claimed to be clamped so the
    issued speed never overshoots past the requested consign; with previous
    speed 0 and consign 10 the code issues 20, which is past the consign. -/
theorem do_ramp_overshoots_counterexample :
    (0 : Int) ≤ 10 ∧ holonomic_do_ramp 0 10 = 20 ∧ (10 : Int) < holonomic_do_ramp 0 10 := by
  refine ⟨by decide, by decide, by decide⟩

/-- Claim C3 (amended): each call moves the issued speed by exactly the fixed
    step 20 in the direction of the requested consign (up when the consign is
    at least the previous speed, down otherwise); there is no clamping, so the
    issued speed can pass the consign, as with previous speed 0 and consign
    10, which yields 20. -/
theorem do_ramp_fixed_step_unclamped (prev consign : Int) :
    (prev ≤ consign → holonomic_do_ramp prev consign = prev + 20) ∧
    (consign < prev → holonomic_do_ramp prev consign = prev - 20) ∧
    holonomic_do_ramp 0 10 = 20 := by
  refine ⟨?_, ?_, by decide⟩
  · intro h
    simp [holonomic_do_ramp, h]
  · intro h
    simp only [holonomic_do_ramp, not_le.mpr h, if_false]
    omega

/-- Claim C3 witness: with previous speed 3 and consign 50 the ramp issues
    3 + 20. -/
theorem do_ramp_fixed_step_unclamped_witness :
    holonomic_do_ramp 3 50 = 3 + 20 :=
  (do_ramp_fixed_step_unclamped 3 50).1 (by decide)

/-- Claim C10: every call of holonomic_do_ramp changes the stored previous
    speed by exactly 20 in absolute value, adding 20 when the consign is at
    least the previous speed and subtracting 20 otherwise; a consign equal to
    the previous speed raises the speed by 20, in particular a zero consign
    right after the reset to zero performed by holonomic_delete_event leaves
    prev_speed at 20 rather than 0. -/
theorem do_ramp_always_steps_twenty (prev consign : Int) :
    |holonomic_do_ramp prev consign - prev| = 20 ∧
    (prev ≤ consign → holonomic_do_ramp prev consign = prev + 20) ∧
    (consign < prev → holonomic_do_ramp prev consign = prev - 20) ∧
    holonomic_do_ramp prev prev = prev + 20 ∧
    (∀ (traj : HTrajectory) (g : Globals) (tvi : Int) (sch : Scheduler),
      (holonomic_delete_event traj g tvi sch).2.1.prev_speed = 20) := by
  refine ⟨?_, ?_, ?_, by simp [holonomic_do_ramp], ?_⟩
  · rcases le_or_lt prev consign with h | h
    · simp [holonomic_do_ramp, h]
    · simp only [holonomic_do_ramp, not_le.mpr h, if_false]
      have h2 : prev + -20 - prev = -20 := by ring
      rw [h2]
      decide
  · intro h
    simp [holonomic_do_ramp, h]
  · intro h
    simp only [holonomic_do_ramp, not_le.mpr h, if_false]
    omega
  · intro traj g tvi sch
    unfold holonomic_delete_event set_consigns_to_rsh holonomic_do_ramp
    by_cases h : traj.scheduler_task ≠ -1 <;> simp [h]

/-- Claim C10 witness: with previous speed 5 and consign 9 the change is
    exactly 20 and the result is 5 + 20. -/
theorem do_ramp_always_steps_twenty_witness :
    |holonomic_do_ramp 5 9 - 5| = 20 ∧ holonomic_do_ramp 5 9 = 5 + 20 :=
  ⟨(do_ramp_always_steps_twenty 5 9).1,
   (do_ramp_always_steps_twenty 5 9).2.1 (by decide)⟩

/-- Claim C1: the shortest-rotation normalize is claimed to land in
    (-pi, pi] with values below -pi mapped symmetrically and to be
    idempotent; at a = -4 the code returns 2*pi - a = 2*pi + 4, which is
    above pi (the symmetric mapping would be a + 2*pi), and a second
    application returns 4, so the function is not idempotent. -/
theorem best_delta_angle_not_normalized :
    holonomic_best_delta_angle_rad (-4) = 2 * Real.pi + 4 ∧
    Real.pi < holonomic_best_delta_angle_rad (-4) ∧
    holonomic_best_delta_angle_rad (holonomic_best_delta_angle_rad (-4)) = 4 ∧
    holonomic_best_delta_angle_rad (holonomic_best_delta_angle_rad (-4)) ≠
      holonomic_best_delta_angle_rad (-4) := by
  have hpi4 : Real.pi < 4 := by linarith [Real.pi_lt_d2]
  have hpip := Real.pi_pos
  have h1 : holonomic_best_delta_angle_rad (-4) = 2 * Real.pi + 4 := by
    unfold holonomic_best_delta_angle_rad
    rw [if_neg (by linarith), if_pos (by linarith)]
    ring
  have h3 : holonomic_best_delta_angle_rad (2 * Real.pi + 4) = 4 := by
    unfold holonomic_best_delta_angle_rad
    rw [if_pos (by linarith)]
    ring
  refine ⟨h1, by rw [h1]; linarith, by rw [h1, h3], ?_⟩
  rw [h1, h3]
  intro h
  linarith

/-- Claim C2: the modulo-2pi reduction is claimed to return an angle
    equivalent modulo 2*pi inside (-pi, pi]; the code subtracts multiples of
    M_PI_2 = pi/2 (a quarter turn, not a full turn): at a = 2 it returns
    2 - pi/2, which differs from 2 by pi/2, not by a multiple of 2*pi, and
    holonomic_simple_modulo_2pi sends -2*pi (inside the documented input
    range of plus or minus 3*pi) to -3*pi/2, outside [-pi, pi]. -/
theorem modulo_2pi_reduces_by_quarter_turn :
    holonomic_simple_modulo_2pi (-2 * Real.pi) = -(3 * Real.pi / 2) ∧
    -(3 * Real.pi / 2) < -Real.pi ∧
    holonomic_modulo_2pi 2 = 2 - Real.pi / 2 ∧
    ∀ k : ℤ, (2 : ℝ) - holonomic_modulo_2pi 2 ≠ 2 * Real.pi * k := by
  have hpi3 : (3 : ℝ) < Real.pi := Real.pi_gt_three
  have hpi4 : Real.pi < 4 := by linarith [Real.pi_lt_d2]
  have hhalf : (0 : ℝ) < Real.pi / 2 := by linarith
  have hsimple : holonomic_simple_modulo_2pi (-2 * Real.pi) = -(3 * Real.pi / 2) := by
    unfold holonomic_simple_modulo_2pi M_PI_2
    rw [if_pos (by linarith)]
    ring
  have hfloor : ⌊(2 : ℝ) / (Real.pi / 2)⌋ = 1 := by
    rw [Int.floor_eq_iff]
    constructor
    · push_cast
      rw [le_div_iff₀ hhalf]
      linarith
    · push_cast
      rw [div_lt_iff₀ hhalf]
      linarith
  have hmod : holonomic_modulo_2pi 2 = 2 - Real.pi / 2 := by
    unfold holonomic_modulo_2pi truncTowardZero M_PI_2
    rw [if_pos (by positivity), hfloor]
    push_cast
    rw [one_mul]
    unfold holonomic_simple_modulo_2pi M_PI_2
    rw [if_neg (by linarith), if_neg (by linarith)]
  refine ⟨hsimple, by linarith, hmod, ?_⟩
  intro k h
  rw [hmod] at h
  have h7 : Real.pi / 2 = 2 * Real.pi * (k : ℝ) := by linarith
  have h8 : Real.pi * ((k : ℝ) * 4 - 1) = 0 := by nlinarith [h7]
  rcases mul_eq_zero.mp h8 with hc | hc
  · exact Real.pi_ne_zero hc
  · have h9 : ((4 * k : ℤ) : ℝ) = ((1 : ℤ) : ℝ) := by push_cast; linarith
    have h10 : (4 * k : ℤ) = 1 := Int.cast_injective h9
    omega

/-- Claim C7: the angle-window predicate returns true exactly when, with
    d_a = a_target - heading, either the absolute error is below pi and below
    a_win/2, or the absolute error is at least pi and 2*pi minus it is below
    a_win/2; in particular with a_target = 0.05, heading = 2*pi - 0.05 and
    a_win = 0.3 the predicate reports in-window across the wraparound. -/
theorem angle_window_matches_spec (a_target heading a_win : ℝ) :
    (holonomic_robot_in_angle_window a_target heading a_win = true ↔
      ((|a_target - heading| < Real.pi ∧ |a_target - heading| < a_win / 2) ∨
       (Real.pi ≤ |a_target - heading| ∧
        2 * Real.pi - |a_target - heading| < a_win / 2))) ∧
    holonomic_robot_in_angle_window 0.05 (2 * Real.pi - 0.05) 0.3 = true := by
  constructor
  · unfold holonomic_robot_in_angle_window
    dsimp only
    split_ifs with h h2 h3
    · exact iff_of_true rfl (Or.inl ⟨h, h2⟩)
    · refine iff_of_false (by simp) ?_
      rintro (⟨h3, h4⟩ | ⟨h3, h4⟩)
      · exact h2 h4
      · exact absurd h3 (not_le.mpr h)
    · exact iff_of_true rfl (Or.inr ⟨not_lt.mp h, h3⟩)
    · refine iff_of_false (by simp) ?_
      rintro (⟨h4, h5⟩ | ⟨h4, h5⟩)
      · exact h h4
      · exact h3 h5
  · have hpi3 : (3 : ℝ) < Real.pi := Real.pi_gt_three
    have habs : |(0.05 : ℝ) - (2 * Real.pi - 0.05)| = 2 * Real.pi - 0.1 := by
      rw [abs_of_nonpos (by linarith)]
      ring
    unfold holonomic_robot_in_angle_window
    dsimp only
    rw [habs, if_neg (by linarith), if_pos (by linarith)]

/-- Claim C9: scheduler_task is -1 exactly when no periodic evaluation is
    armed (an invariant preserved by arming and disarming); arming when a
    task is already armed registers nothing and changes nothing (the source
    only logs); disarming when no task is armed touches no scheduler
    registration and leaves scheduler_task at -1. -/
theorem scheduler_arm_disarm_idempotent (traj : HTrajectory) (g : Globals)
    (tvi : Int) (sch : Scheduler) :
    (traj.scheduler_task ≠ -1 → holonomic_schedule_event traj sch = (traj, sch)) ∧
    (traj.scheduler_task = -1 →
      (holonomic_delete_event traj g tvi sch).2.2.1 = sch ∧
      (holonomic_delete_event traj g tvi sch).1.scheduler_task = -1) ∧
    (SchedInv traj sch →
      SchedInv (holonomic_schedule_event traj sch).1
        (holonomic_schedule_event traj sch).2 ∧
      SchedInv (holonomic_delete_event traj g tvi sch).1
        (holonomic_delete_event traj g tvi sch).2.2.1) := by
  refine ⟨?_, ?_, ?_⟩
  · intro h
    unfold holonomic_schedule_event
    rw [if_pos h]
  · intro h
    unfold holonomic_delete_event
    simp [h]
  · rintro ⟨hiff, hsingle⟩
    refine ⟨?_, ?_⟩
    · by_cases h : traj.scheduler_task = -1
      · have hempty : sch.tasks = [] := hiff.mp h
        have hid : (sch.next_id : Int) ≠ -1 := by omega
        unfold holonomic_schedule_event scheduler_add
        rw [if_neg (by simp [h])]
        refine ⟨⟨fun hc => absurd hc hid, fun hc => by simp at hc⟩, fun hc => by
          simp [hempty]⟩
      · unfold holonomic_schedule_event
        rw [if_pos h]
        exact ⟨hiff, hsingle⟩
    · by_cases h : traj.scheduler_task = -1
      · have hempty : sch.tasks = [] := hiff.mp h
        unfold holonomic_delete_event
        simp only [ne_eq, h, not_true_eq_false, if_false]
        exact ⟨by simp [h, hempty], by simp [h]⟩
      · have hone : sch.tasks = [traj.scheduler_task] := hsingle h
        unfold holonomic_delete_event scheduler_del
        simp only [ne_eq, h, not_false_eq_true, if_true]
        refine ⟨by simp [hone], by simp⟩

/-- Claim C8: in STRAIGHT mode (with the turning axis not idle, so the tick
    issues its consign) the speed consign is the nominal cruise speed 500
    when the distance to xy_target is at least 250, and twice the (truncated)
    distance when the distance is below 250. -/
theorem straight_speed_taper (traj : HTrajectory) (g : Globals) (sch : Scheduler)
    (x y heading : ℝ) (tvi : Int)
    (hm : traj.moving_state = .STRAIGHT) (ht : traj.turning_state ≠ .IDLE) :
    (250 ≤ vect2_dist_cart (x, y) traj.xy_target →
      ((holonomic_trajectory_manager_event traj g sch x y heading tvi).consigns.map
        (fun c => c.1)) = some 500) ∧
    (vect2_dist_cart (x, y) traj.xy_target < 250 →
      ((holonomic_trajectory_manager_event traj g sch x y heading tvi).consigns.map
        (fun c => c.1)) =
      some (2 * truncTowardZero (vect2_dist_cart (x, y) traj.xy_target))) := by
  have hd0 : 0 ≤ vect2_dist_cart (x, y) traj.xy_target := Real.sqrt_nonneg _
  have htr : truncTowardZero (vect2_dist_cart (x, y) traj.xy_target) =
      ⌊vect2_dist_cart (x, y) traj.xy_target⌋ := by
    unfold truncTowardZero
    rw [if_pos hd0]
  have hmain : ((holonomic_trajectory_manager_event traj g sch x y heading tvi).consigns.map
      (fun c => c.1)) =
      some (if truncTowardZero (vect2_dist_cart (x, y) traj.xy_target) < 250 then
        2 * truncTowardZero (vect2_dist_cart (x, y) traj.xy_target) else SPEED_ROBOT) := by
    unfold holonomic_trajectory_manager_event event_step2 step1_moving
    dsimp only
    rw [hm]
    dsimp only
    rw [if_neg (fun hc => ht hc.1), if_neg (fun hc => by simp at hc)]
    simp
  refine ⟨?_, ?_⟩
  · intro hd
    rw [hmain, htr, if_neg (by rw [not_lt, Int.le_floor]; exact_mod_cast hd)]
    rfl
  · intro hd
    rw [hmain, htr, if_pos (Int.floor_lt.mpr (by exact_mod_cast hd))]

/-- Claim C8 witness: STRAIGHT mode at pose (0,0) with xy_target (100,0),
    distance 100 < 250, issues a speed consign of 200 (twice the distance),
    not the nominal cruise speed. -/
theorem straight_speed_taper_witness :
    ((holonomic_trajectory_manager_event straightSample
        ⟨0, (-1, -1)⟩ ⟨[], 0⟩ 0 0 0 0).consigns.map (fun c => c.1)) = some 200 := by
  have hxy : straightSample.xy_target = ((100 : ℝ), (0 : ℝ)) := rfl
  have hdist : vect2_dist_cart ((0 : ℝ), (0 : ℝ)) ((100 : ℝ), (0 : ℝ)) = 100 := by
    unfold vect2_dist_cart
    rw [show ((0 : ℝ) - 100) ^ 2 + ((0 : ℝ) - 0) ^ 2 = 100 ^ 2 by ring,
      Real.sqrt_sq (by norm_num)]
  have htr : truncTowardZero (100 : ℝ) = 100 := by
    unfold truncTowardZero
    rw [if_pos (by norm_num)]
    norm_num
  have h2 := (straight_speed_taper straightSample
      ⟨0, (-1, -1)⟩ ⟨[], 0⟩ 0 0 0 0 rfl (by decide)).2
  rw [hxy, hdist, htr] at h2
  simpa using h2 (by norm_num)

/-- Claim C4: in FACEPOINT turning mode the angular-speed consign issued by
    the evaluator is the constant 1 for every pose and trajectory state (the
    call deriving it from holonomic_angle_facepoint_rad is commented out in
    the source), although the angle-utility value genuinely depends on the
    facing point: it is 0 for the point (1,0) and pi/2 for the point (0,1)
    at heading 0. -/
theorem facepoint_consign_constant_one (traj : HTrajectory) (g : Globals)
    (sch : Scheduler) (x y heading : ℝ) (tvi : Int)
    (ht : traj.turning_state = .FACEPOINT) (hm : traj.moving_state ≠ .IDLE) :
    ((holonomic_trajectory_manager_event traj g sch x y heading tvi).consigns.map
      (fun c => c.2.2)) = some 1 ∧
    holonomic_angle_facepoint_rad (1, 0) 0 = 0 ∧
    holonomic_angle_facepoint_rad (0, 1) 0 = Real.pi / 2 ∧
    holonomic_angle_facepoint_rad (1, 0) 0 ≠ holonomic_angle_facepoint_rad (0, 1) 0 := by
  have hpi := Real.pi_pos
  have hfp1 : holonomic_angle_facepoint_rad (1, 0) 0 = 0 := by
    unfold holonomic_angle_facepoint_rad vect2_angle_vec_x_rad_cart atan2f
    rw [show ((1 : ℝ) : ℂ) + ((0 : ℝ) : ℂ) * Complex.I = 1 by push_cast; ring,
      Complex.arg_one]
    unfold holonomic_best_delta_angle_rad
    rw [if_neg (by simpa using hpi.le), if_neg (by simpa using hpi.le)]
    norm_num
  have hfp2 : holonomic_angle_facepoint_rad (0, 1) 0 = Real.pi / 2 := by
    unfold holonomic_angle_facepoint_rad vect2_angle_vec_x_rad_cart atan2f
    rw [show ((0 : ℝ) : ℂ) + ((1 : ℝ) : ℂ) * Complex.I = Complex.I by push_cast; ring,
      Complex.arg_I]
    unfold holonomic_best_delta_angle_rad
    rw [if_neg (by push_neg; linarith), if_neg (by push_neg; linarith)]
    ring
  refine ⟨?_, hfp1, hfp2, by rw [hfp1, hfp2]; intro hc; linarith⟩
  unfold holonomic_trajectory_manager_event event_step2 step_turning
  dsimp only
  rw [ht]
  dsimp only
  rw [if_neg (fun hc => absurd hc.1 (by decide)),
    if_neg (fun hc => absurd hc.1 hm)]
  simp

/-- Claim C4 witness: at the sample FACEPOINT state the issued angular-speed
    consign is 1. -/
theorem facepoint_consign_constant_one_witness :
    ((holonomic_trajectory_manager_event facepointSample ⟨0, (-1, -1)⟩ ⟨[], 0⟩
        3 4 0 0).consigns.map (fun c => c.2.2)) = some 1 :=
  (facepoint_consign_constant_one facepointSample ⟨0, (-1, -1)⟩ ⟨[], 0⟩ 3 4 0 0
    rfl (by decide)).1

/-- Claim C5: the CIRCLE completion branch computes the arrival point from
    the polar angle of the CURRENT pose around the center, not from the start
    of the arc. On the unit circle around the origin with arc_angle pi/2,
    start (1,0) and current pose (0,-1) (exactly the geometric end of the
    arc), the code computes arrival (-1,0), at distance sqrt 2 from the pose,
    so with d_win = 1 the trajectory is not finished, while the arrival point
    of the spec, (0,-1), is at distance 0 and would finish it. -/
theorem circle_arrival_uses_current_pose_not_start :
    circle_arrival (0, 0) 1 (Real.pi / 2) 0 (-1) = ((-1 : ℝ), (0 : ℝ)) ∧
    spec_arc_arrival (0, 0) 1 (Real.pi / 2) 1 0 = ((0 : ℝ), (-1 : ℝ)) ∧
    ¬ (vect2_dist_cart (circle_arrival (0, 0) 1 (Real.pi / 2) 0 (-1)) (0, -1) < 1) ∧
    vect2_dist_cart (spec_arc_arrival (0, 0) 1 (Real.pi / 2) 1 0) (0, -1) < 1 := by
  have harg1 : atan2f (-1 : ℝ) 0 = -(Real.pi / 2) := by
    unfold atan2f
    rw [show ((0 : ℝ) : ℂ) + ((-1 : ℝ) : ℂ) * Complex.I = -Complex.I by push_cast; ring]
    exact Complex.arg_neg_I
  have harg2 : atan2f (0 : ℝ) 1 = 0 := by
    unfold atan2f
    rw [show ((1 : ℝ) : ℂ) + ((0 : ℝ) : ℂ) * Complex.I = 1 by push_cast; ring]
    exact Complex.arg_one
  have hca : circle_arrival (0, 0) 1 (Real.pi / 2) 0 (-1) = ((-1 : ℝ), (0 : ℝ)) := by
    unfold circle_arrival
    norm_num [harg1]
    rw [show -(Real.pi / 2) - Real.pi / 2 = -Real.pi by ring]
    rw [Real.cos_neg, Real.cos_pi, Real.sin_neg, Real.sin_pi]
    norm_num
  have hsa : spec_arc_arrival (0, 0) 1 (Real.pi / 2) 1 0 = ((0 : ℝ), (-1 : ℝ)) := by
    unfold spec_arc_arrival
    norm_num [harg2]
  have hd1 : vect2_dist_cart ((-1 : ℝ), (0 : ℝ)) (0, -1) = Real.sqrt 2 := by
    unfold vect2_dist_cart
    norm_num
  have hd2 : vect2_dist_cart ((0 : ℝ), (-1 : ℝ)) (0, -1) = 0 := by
    unfold vect2_dist_cart
    norm_num
  refine ⟨hca, hsa, ?_, ?_⟩
  · rw [hca, hd1]
    intro hlt
    nlinarith [Real.sq_sqrt (by norm_num : (0 : ℝ) ≤ 2), Real.sqrt_nonneg 2]
  · rw [hsa, hd2]
    norm_num

/-- Any point produced by the keyframe formula lies at distance radius from
    the center (for a nonnegative radius). -/
theorem circle_keyframe_dist (cc : ℝ × ℝ) (r x y : ℝ) (hr : 0 ≤ r) :
    vect2_dist_cart (circle_keyframe cc r x y) cc = r := by
  unfold circle_keyframe vect2_dist_cart
  dsimp only
  have hcs := Real.sin_sq_add_cos_sq (atan2f (y - cc.2) (x - cc.1) - ANGLE_INC)
  have h : (cc.1 + Real.cos (atan2f (y - cc.2) (x - cc.1) - ANGLE_INC) * r - cc.1) ^ 2 +
      (cc.2 + Real.sin (atan2f (y - cc.2) (x - cc.1) - ANGLE_INC) * r - cc.2) ^ 2 =
      r ^ 2 := by
    linear_combination r ^ 2 * hcs
  rw [h, Real.sqrt_sq hr]

/-- One tick in CIRCLE mode: the mode, the center and the radius are
    untouched; the keyframe left in the static state is either the fresh
    keyframe of this tick or the incoming one (and surely the fresh one when
    the incoming keyframe has a negative first coordinate, as the static
    initializer (-1,-1) has); the keyframe written into xy_target is likewise
    the fresh or the incoming one. -/
theorem event_circle_step (traj : HTrajectory) (g : Globals) (sch : Scheduler)
    (x y heading : ℝ) (tvi : Int) (hm : traj.moving_state = .CIRCLE) :
    (holonomic_trajectory_manager_event traj g sch x y heading tvi).traj.moving_state =
      .CIRCLE ∧
    (holonomic_trajectory_manager_event traj g sch x y heading tvi).traj.circle_center =
      traj.circle_center ∧
    (holonomic_trajectory_manager_event traj g sch x y heading tvi).traj.radius =
      traj.radius ∧
    ((holonomic_trajectory_manager_event traj g sch x y heading tvi).g.keyframe =
      circle_keyframe traj.circle_center traj.radius x y ∨
     (holonomic_trajectory_manager_event traj g sch x y heading tvi).g.keyframe =
      g.keyframe) ∧
    (g.keyframe.1 < 0 →
      (holonomic_trajectory_manager_event traj g sch x y heading tvi).g.keyframe =
        circle_keyframe traj.circle_center traj.radius x y) ∧
    ((holonomic_trajectory_manager_event traj g sch x y heading tvi).traj.xy_target =
      circle_keyframe traj.circle_center traj.radius x y ∨
     (holonomic_trajectory_manager_event traj g sch x y heading tvi).traj.xy_target =
      g.keyframe) ∧
    (g.keyframe.1 < 0 →
      (holonomic_trajectory_manager_event traj g sch x y heading tvi).traj.xy_target =
        circle_keyframe traj.circle_center traj.radius x y) := by
  unfold holonomic_trajectory_manager_event event_step2 step1_moving
    holonomic_delete_event set_consigns_to_rsh
  dsimp only
  rw [hm]
  dsimp only
  split_ifs <;>
    first
      | exact absurd (rfl : MovingState.CIRCLE = MovingState.CIRCLE) (by assumption)
      | refine ⟨rfl, rfl, rfl,
          by first | exact Or.inl rfl | exact Or.inr rfl,
          fun hneg => by simp_all,
          by first | exact Or.inl rfl | exact Or.inr rfl,
          fun hneg => by simp_all⟩

/-- Invariant carried along a run of the evaluator in CIRCLE mode: the mode,
    the center and the radius are stable; a static keyframe on the circle
    stays on the circle, and so does the xy_target keyframe. -/
theorem run_event_circle_inv (poses : List (ℝ × ℝ × ℝ × Int)) :
    ∀ (traj : HTrajectory) (g : Globals) (sch : Scheduler),
    traj.moving_state = .CIRCLE →
    0 ≤ traj.radius →
    vect2_dist_cart g.keyframe traj.circle_center = traj.radius →
    (run_event traj g sch poses).1.moving_state = .CIRCLE ∧
    (run_event traj g sch poses).1.circle_center = traj.circle_center ∧
    (run_event traj g sch poses).1.radius = traj.radius ∧
    vect2_dist_cart (run_event traj g sch poses).2.1.keyframe traj.circle_center =
      traj.radius ∧
    (vect2_dist_cart traj.xy_target traj.circle_center = traj.radius →
      vect2_dist_cart (run_event traj g sch poses).1.xy_target traj.circle_center =
        traj.radius) := by
  induction poses with
  | nil =>
      intro traj g sch hm hr hkf
      exact ⟨hm, rfl, rfl, hkf, fun hxy => hxy⟩
  | cons p rest ih =>
      intro traj g sch hm hr hkf
      obtain ⟨h1, h2, h3, h4, h5, h6, h7⟩ :=
        event_circle_step traj g sch p.1 p.2.1 p.2.2.1 p.2.2.2 hm
      set E := holonomic_trajectory_manager_event traj g sch p.1 p.2.1 p.2.2.1 p.2.2.2
        with hE
      have hkf2 : vect2_dist_cart E.g.keyframe E.traj.circle_center = E.traj.radius := by
        rw [h2, h3]
        rcases h4 with h | h
        · rw [h]
          exact circle_keyframe_dist _ _ _ _ hr
        · rw [h]
          exact hkf
      have H := ih E.traj E.g E.sch h1 (by rw [h3]; exact hr) hkf2
      have hrw : run_event traj g sch (p :: rest) = run_event E.traj E.g E.sch rest := rfl
      rw [hrw]
      refine ⟨H.1, H.2.1.trans h2, H.2.2.1.trans h3, ?_, ?_⟩
      · have hx := H.2.2.2.1
        rw [h2, h3] at hx
        exact hx
      · intro hxy
        have hxy2 : vect2_dist_cart E.traj.xy_target E.traj.circle_center =
            E.traj.radius := by
          rw [h2, h3]
          rcases h6 with h | h
          · rw [h]
            exact circle_keyframe_dist _ _ _ _ hr
          · rw [h]
            exact hkf
        have hx := H.2.2.2.2 hxy2
        rw [h2, h3] at hx
        exact hx

/-- Claim C6: starting in CIRCLE mode from the static initial keyframe
    (negative first coordinate, as the initializer (-1,-1)), after any
    nonempty sequence of ticks with the centre and radius fixed, both the
    static keyframe and the keyframe written into xy_target lie exactly on
    the circle of the given radius around circle_center. -/
theorem circle_keyframe_on_circle (poses : List (ℝ × ℝ × ℝ × Int))
    (traj : HTrajectory) (g : Globals) (sch : Scheduler)
    (hm : traj.moving_state = .CIRCLE) (hkf : g.keyframe.1 < 0)
    (hr : 0 ≤ traj.radius) (hne : poses ≠ []) :
    vect2_dist_cart (run_event traj g sch poses).2.1.keyframe traj.circle_center =
      traj.radius ∧
    vect2_dist_cart (run_event traj g sch poses).1.xy_target traj.circle_center =
      traj.radius := by
  cases poses with
  | nil => exact absurd rfl hne
  | cons p rest =>
      obtain ⟨h1, h2, h3, h4, h5, h6, h7⟩ :=
        event_circle_step traj g sch p.1 p.2.1 p.2.2.1 p.2.2.2 hm
      set E := holonomic_trajectory_manager_event traj g sch p.1 p.2.1 p.2.2.1 p.2.2.2
        with hE
      have hkf2 : vect2_dist_cart E.g.keyframe E.traj.circle_center = E.traj.radius := by
        rw [h2, h3, h5 hkf]
        exact circle_keyframe_dist _ _ _ _ hr
      have hxy2 : vect2_dist_cart E.traj.xy_target E.traj.circle_center =
          E.traj.radius := by
        rw [h2, h3, h7 hkf]
        exact circle_keyframe_dist _ _ _ _ hr
      have H := run_event_circle_inv rest E.traj E.g E.sch h1 (by rw [h3]; exact hr) hkf2
      have hrw : run_event traj g sch (p :: rest) = run_event E.traj E.g E.sch rest := rfl
      rw [hrw]
      constructor
      · have hx := H.2.2.2.1
        rw [h2, h3] at hx
        exact hx
      · have hx := H.2.2.2.2 hxy2
        rw [h2, h3] at hx
        exact hx

/-- Claim C6 witness: one tick of the unit-circle sample from pose (2,0)
    leaves the static keyframe and xy_target at distance exactly 1 from the
    center (0,0). -/
theorem circle_keyframe_on_circle_witness :
    vect2_dist_cart (run_event circleSample ⟨0, (-1, -1)⟩ ⟨[], 0⟩
      [(2, 0, 0, 0)]).2.1.keyframe ((0 : ℝ), (0 : ℝ)) = 1 ∧
    vect2_dist_cart (run_event circleSample ⟨0, (-1, -1)⟩ ⟨[], 0⟩
      [(2, 0, 0, 0)]).1.xy_target ((0 : ℝ), (0 : ℝ)) = 1 :=
  circle_keyframe_on_circle [(2, 0, 0, 0)] circleSample ⟨0, (-1, -1)⟩ ⟨[], 0⟩
    rfl (by norm_num) (by norm_num [circleSample, sampleTraj]) (by simp)

/-- Claim C9 witness: arming with task id 5 already stored changes nothing,
    and disarming with no task stored (id -1) leaves the scheduler untouched. -/
theorem scheduler_arm_disarm_idempotent_witness :
    holonomic_schedule_event sampleTraj ⟨[5], 6⟩ = (sampleTraj, ⟨[5], 6⟩) ∧
    (holonomic_delete_event { sampleTraj with scheduler_task := -1 } ⟨0, (-1, -1)⟩ 0
      ⟨[], 0⟩).2.2.1 = ⟨[], 0⟩ :=
  ⟨(scheduler_arm_disarm_idempotent sampleTraj ⟨0, (-1, -1)⟩ 0 ⟨[5], 6⟩).1 (by decide),
   ((scheduler_arm_disarm_idempotent { sampleTraj with scheduler_task := -1 }
      ⟨0, (-1, -1)⟩ 0 ⟨[], 0⟩).2.1 rfl).1⟩
